import Mathlib

/-!
Verification of the HypiLite statistics aggregation and leveling engine
(`src/app.py`, endpoint handler `bedwars_stats`, lines 262-504).

The raw counter map (`player_data["stats"]["Bedwars"]`, a JSON object mapping
string keys to non-negative integers) is modelled as an association list; the
Python `dict.get(key, 0)` becomes `rawGet`.  Python float arithmetic in the
ratio fields is modelled exactly over the rationals, and Python `round(x, 2)`
becomes rounding to the nearest multiple of 1/100 (`round2`).  The leveling
helper `get_level_info` is imported from `utils`, which is not part of the
reviewed source; it is modelled from the spec (section 4.1) below.
-/

namespace HypiLite

/-- RawCounterMap: the flat Bedwars counter object, a JSON mapping from string
keys to non-negative integers, modelled as an association list. -/
def RawMap : Type := List (String × Nat)

/-- Models Python `bedwars_data.get(key, 0)`: look the key up, defaulting to
zero when it is absent. -/
def rawGet (m : RawMap) (k : String) : Nat :=
  match List.find? (fun kv => kv.1 == k) m with
  | some kv => kv.2
  | none => 0

/-- A value in a mode metrics record: the 8 raw counters and 4 resource
totals are integers, the 4 derived ratios are (rounded) rationals. -/
inductive StatVal where
  | int : Nat → StatVal
  | ratio : ℚ → StatVal
deriving DecidableEq

/-- Python `round(x, 2)` modelled on exact rationals: round to the nearest
multiple of 1/100 (the spec allows either tie-breaking convention). -/
def round2 (q : ℚ) : ℚ := (round (q * 100) : ℚ) / 100

/-- The `combined_modes` dictionary from `app.py` lines 337-342: each combined
category is the sum over exactly two prefixes, a doubles and a fours variant. -/
def combined_modes : List (String × List String) :=
  [("ultimate", ["eight_two_ultimate_", "four_four_ultimate_"]),
   ("lucky", ["eight_two_lucky_", "four_four_lucky_"]),
   ("rush", ["eight_two_rush_", "four_four_rush_"]),
   ("swap", ["eight_two_swap_", "four_four_swap_"])]

/-- The `gamemodes` dictionary from `app.py` lines 344-372 in insertion order:
mode key paired with its prefix; `none` marks the special cases (`core` and the
four combined categories) whose prefix entry is Python `None`. -/
def gamemodes : List (String × Option String) :=
  [("overall", some ""),
   ("core", none),
   ("eight_one", some "eight_one_"),
   ("eight_two", some "eight_two_"),
   ("four_three", some "four_three_"),
   ("four_four", some "four_four_"),
   ("two_four", some "two_four_"),
   ("four_four_armed", some "four_four_armed_"),
   ("castle", some "castle_"),
   ("four_four_lucky", some "four_four_lucky_"),
   ("eight_two_lucky", some "eight_two_lucky_"),
   ("eight_two_rush", some "eight_two_rush_"),
   ("four_four_rush", some "four_four_rush_"),
   ("eight_two_swap", some "eight_two_swap_"),
   ("four_four_swap", some "four_four_swap_"),
   ("eight_two_ultimate", some "eight_two_ultimate_"),
   ("four_four_ultimate", some "four_four_ultimate_"),
   ("four_four_underworld", some "four_four_underworld_"),
   ("four_four_voidless", some "four_four_voidless_"),
   ("ultimate", none),
   ("lucky", none),
   ("rush", none),
   ("swap", none)]

/-- The `core_modes` list from `app.py` line 374: the four base prefixes
(solo, doubles, threes, fours). -/
def core_modes : List String :=
  ["eight_one_", "eight_two_", "four_three_", "four_four_"]

/-- Models Python `sum(bedwars_data.get(f"{prefix}{suffix}", 0) for prefix in
prefixes)` (integer addition, so the iteration order of the generator is
irrelevant to the value). -/
def sumGet (m : RawMap) (prefixes : List String) (suffix : String) : Nat :=
  (prefixes.map (fun p => rawGet m (p ++ suffix))).sum

/-- The `mode_stats` record built for a combined category (`app.py` lines
380-414) and, with `prefixes := core_modes`, the textually identical `core`
branch (lines 415-448): every counter is summed over the prefix list. -/
def sumModeStats (m : RawMap) (mode_key : String) (prefixes : List String) :
    List (String × StatVal) :=
  let wins := sumGet m prefixes "wins_bedwars"
  let losses := sumGet m prefixes "losses_bedwars"
  let final_kills := sumGet m prefixes "final_kills_bedwars"
  let final_deaths := sumGet m prefixes "final_deaths_bedwars"
  let kills := sumGet m prefixes "kills_bedwars"
  let deaths := sumGet m prefixes "deaths_bedwars"
  let beds_broken := sumGet m prefixes "beds_broken_bedwars"
  let beds_lost := sumGet m prefixes "beds_lost_bedwars"
  [(mode_key ++ "_emeralds", .int (sumGet m prefixes "emerald_resources_collected_bedwars")),
   (mode_key ++ "_diamonds", .int (sumGet m prefixes "diamond_resources_collected_bedwars")),
   (mode_key ++ "_gold", .int (sumGet m prefixes "gold_resources_collected_bedwars")),
   (mode_key ++ "_iron", .int (sumGet m prefixes "iron_resources_collected_bedwars")),
   (mode_key ++ "_wins", .int wins),
   (mode_key ++ "_losses", .int losses),
   (mode_key ++ "_final_kills", .int final_kills),
   (mode_key ++ "_final_deaths", .int final_deaths),
   (mode_key ++ "_kills", .int kills),
   (mode_key ++ "_deaths", .int deaths),
   (mode_key ++ "_beds_broken", .int beds_broken),
   (mode_key ++ "_beds_lost", .int beds_lost),
   (mode_key ++ "_wlr", .ratio (round2 (if 0 < losses then (wins : ℚ) / (losses : ℚ) else (wins : ℚ)))),
   (mode_key ++ "_kdr", .ratio (round2 (if 0 < deaths then (kills : ℚ) / (deaths : ℚ) else (kills : ℚ)))),
   (mode_key ++ "_fkdr", .ratio (round2 (if 0 < final_deaths then (final_kills : ℚ) / (final_deaths : ℚ) else (final_kills : ℚ)))),
   (mode_key ++ "_bblr", .ratio (round2 (if 0 < beds_lost then (beds_broken : ℚ) / (beds_lost : ℚ) else (beds_broken : ℚ))))]

/-- The `mode_stats` record built for an individual mode (`app.py` lines
449-482): every counter is a single lookup under the prefix of the mode. -/
def simpleModeStats (m : RawMap) (mode_key mpfx : String) :
    List (String × StatVal) :=
  let wins := rawGet m (mpfx ++ "wins_bedwars")
  let losses := rawGet m (mpfx ++ "losses_bedwars")
  let final_kills := rawGet m (mpfx ++ "final_kills_bedwars")
  let final_deaths := rawGet m (mpfx ++ "final_deaths_bedwars")
  let kills := rawGet m (mpfx ++ "kills_bedwars")
  let deaths := rawGet m (mpfx ++ "deaths_bedwars")
  let beds_broken := rawGet m (mpfx ++ "beds_broken_bedwars")
  let beds_lost := rawGet m (mpfx ++ "beds_lost_bedwars")
  [(mode_key ++ "_emeralds", .int (rawGet m (mpfx ++ "emerald_resources_collected_bedwars"))),
   (mode_key ++ "_diamonds", .int (rawGet m (mpfx ++ "diamond_resources_collected_bedwars"))),
   (mode_key ++ "_gold", .int (rawGet m (mpfx ++ "gold_resources_collected_bedwars"))),
   (mode_key ++ "_iron", .int (rawGet m (mpfx ++ "iron_resources_collected_bedwars"))),
   (mode_key ++ "_wins", .int wins),
   (mode_key ++ "_losses", .int losses),
   (mode_key ++ "_final_kills", .int final_kills),
   (mode_key ++ "_final_deaths", .int final_deaths),
   (mode_key ++ "_kills", .int kills),
   (mode_key ++ "_deaths", .int deaths),
   (mode_key ++ "_beds_broken", .int beds_broken),
   (mode_key ++ "_beds_lost", .int beds_lost),
   (mode_key ++ "_wlr", .ratio (round2 (if 0 < losses then (wins : ℚ) / (losses : ℚ) else (wins : ℚ)))),
   (mode_key ++ "_kdr", .ratio (round2 (if 0 < deaths then (kills : ℚ) / (deaths : ℚ) else (kills : ℚ)))),
   (mode_key ++ "_fkdr", .ratio (round2 (if 0 < final_deaths then (final_kills : ℚ) / (final_deaths : ℚ) else (final_kills : ℚ)))),
   (mode_key ++ "_bblr", .ratio (round2 (if 0 < beds_lost then (beds_broken : ℚ) / (beds_lost : ℚ) else (beds_broken : ℚ))))]

/-- The branch selection of the aggregation loop body (`app.py` lines 379-483):
combined categories sum over their two prefixes, `core` sums over the four
core prefixes, every other mode does single lookups under its own prefix
(the `none` fallback `getD ""` is never reached for simple modes, whose
`gamemodes` entry always carries a prefix). -/
def modeStats (m : RawMap) (gm : String × Option String) :
    List (String × StatVal) :=
  match List.find? (fun c => c.1 == gm.1) combined_modes with
  | some c => sumModeStats m gm.1 c.2
  | none =>
    if gm.1 == "core" then sumModeStats m gm.1 core_modes
    else simpleModeStats m gm.1 (gm.2.getD "")

/-- The full aggregation loop (`app.py` lines 379-483): one metrics record per
`gamemodes` entry, keyed by the mode key, in the dictionary insertion
order. -/
def buildStats (m : RawMap) : List (String × List (String × StatVal)) :=
  gamemodes.map (fun gm => (gm.1, modeStats m gm))

/-- Field lookup in the produced `stats` object: first the mode key, then the
field name inside the record of that mode. -/
def statsField (stats : List (String × List (String × StatVal)))
    (mode field : String) : Option StatVal :=
  match List.find? (fun p => p.1 == mode) stats with
  | some p => (List.find? (fun q => q.1 == field) p.2).map (fun q => q.2)
  | none => none

/-- The 23 mode keys of the schema, in output order. -/
def modeKeys : List String :=
  ["overall", "core", "eight_one", "eight_two", "four_three", "four_four",
   "two_four", "four_four_armed", "castle", "four_four_lucky",
   "eight_two_lucky", "eight_two_rush", "four_four_rush", "eight_two_swap",
   "four_four_swap", "eight_two_ultimate", "four_four_ultimate",
   "four_four_underworld", "four_four_voidless", "ultimate", "lucky", "rush",
   "swap"]

/-- The 12 counter/resource metrics: output field suffix paired with the raw
key suffix it is read from. -/
def metricFields : List (String × String) :=
  [("emeralds", "emerald_resources_collected_bedwars"),
   ("diamonds", "diamond_resources_collected_bedwars"),
   ("gold", "gold_resources_collected_bedwars"),
   ("iron", "iron_resources_collected_bedwars"),
   ("wins", "wins_bedwars"),
   ("losses", "losses_bedwars"),
   ("final_kills", "final_kills_bedwars"),
   ("final_deaths", "final_deaths_bedwars"),
   ("kills", "kills_bedwars"),
   ("deaths", "deaths_bedwars"),
   ("beds_broken", "beds_broken_bedwars"),
   ("beds_lost", "beds_lost_bedwars")]

/-- The four ratio field suffixes. -/
def ratioFields : List String := ["wlr", "kdr", "fkdr", "bblr"]

/-- The prefix set a mode key resolves to (spec section 4.2): the two
constituent prefixes for a combined category, the four core prefixes for
`core`, and the singleton of its own prefix for every other mode. -/
def prefixesOf (mode_key : String) : List String :=
  match List.find? (fun c => c.1 == mode_key) combined_modes with
  | some c => c.2
  | none =>
    if mode_key == "core" then core_modes
    else [((List.find? (fun g => g.1 == mode_key) gamemodes).bind
            (fun g => g.2)).getD ""]


/-- The 17 individual (simple) mode keys: every `gamemodes` entry except the
`overall`/`core` pseudo-modes and the four combined categories. -/
def simpleModeKeys : List String :=
  ["eight_one", "eight_two", "four_three", "four_four", "two_four",
   "four_four_armed", "castle", "four_four_lucky", "eight_two_lucky",
   "eight_two_rush", "four_four_rush", "eight_two_swap", "four_four_swap",
   "eight_two_ultimate", "four_four_ultimate", "four_four_underworld",
   "four_four_voidless"]

/-- The 18 prefixes the aggregation can ever read under: the 17 simple-mode
prefixes plus the empty `overall` prefix.  The `core` and combined-category
prefix sets are subsets of this list. -/
def prefixList : List String :=
  ["", "eight_one_", "eight_two_", "four_three_", "four_four_", "two_four_",
   "four_four_armed_", "castle_", "four_four_lucky_", "eight_two_lucky_",
   "eight_two_rush_", "four_four_rush_", "eight_two_swap_", "four_four_swap_",
   "eight_two_ultimate_", "four_four_ultimate_", "four_four_underworld_",
   "four_four_voidless_"]

/-- The 12 raw key suffixes the aggregation reads. -/
def rawSuffixList : List String :=
  ["emerald_resources_collected_bedwars", "diamond_resources_collected_bedwars",
   "gold_resources_collected_bedwars", "iron_resources_collected_bedwars",
   "wins_bedwars", "losses_bedwars", "final_kills_bedwars",
   "final_deaths_bedwars", "kills_bedwars", "deaths_bedwars",
   "beds_broken_bedwars", "beds_lost_bedwars"]

/-- Every raw key the aggregation can ever look up: a schema prefix followed
by a metric suffix (216 keys). -/
def relevantKeys : List String :=
  prefixList.flatMap (fun p => rawSuffixList.map (fun s => p ++ s))

/-! ## State-passing model of the aggregation (for the no-mutation claim)

The Python loop reads the dictionary of the caller through `dict.get` only.  To
make mutation observable in the embedding, the same aggregation is repeated
below with the raw map threaded through a state monad: every `dict.get`
becomes the state action `getS`, which could in principle return an updated
map.  Proving that the final state equals the initial map shows the engine
never mutates its input. -/

/-- A single `bedwars_data.get(key, 0)` as a state action on the raw map. -/
def getS (k : String) : StateM RawMap Nat :=
  fun m => (rawGet m k, m)

/-- Reads `prefix + suffix` for each prefix in order (the generator inside
Python `sum(...)`), returning the values read. -/
def readAllS : List String → String → StateM RawMap (List Nat)
  | [], _ => pure []
  | p :: ps, suffix => do
    let v ← getS (p ++ suffix)
    let rest ← readAllS ps suffix
    pure (v :: rest)

/-- `sum(bedwars_data.get(f"{prefix}{suffix}", 0) for prefix in prefixes)` as
a state action. -/
def sumGetS (prefixes : List String) (suffix : String) : StateM RawMap Nat := do
  let vs ← readAllS prefixes suffix
  pure vs.sum

/-- State-action version of `sumModeStats`. -/
def sumModeStatsS (mode_key : String) (prefixes : List String) :
    StateM RawMap (List (String × StatVal)) := do
  let wins ← sumGetS prefixes "wins_bedwars"
  let losses ← sumGetS prefixes "losses_bedwars"
  let final_kills ← sumGetS prefixes "final_kills_bedwars"
  let final_deaths ← sumGetS prefixes "final_deaths_bedwars"
  let kills ← sumGetS prefixes "kills_bedwars"
  let deaths ← sumGetS prefixes "deaths_bedwars"
  let beds_broken ← sumGetS prefixes "beds_broken_bedwars"
  let beds_lost ← sumGetS prefixes "beds_lost_bedwars"
  let emeralds ← sumGetS prefixes "emerald_resources_collected_bedwars"
  let diamonds ← sumGetS prefixes "diamond_resources_collected_bedwars"
  let gold ← sumGetS prefixes "gold_resources_collected_bedwars"
  let iron ← sumGetS prefixes "iron_resources_collected_bedwars"
  pure
    [(mode_key ++ "_emeralds", .int emeralds),
     (mode_key ++ "_diamonds", .int diamonds),
     (mode_key ++ "_gold", .int gold),
     (mode_key ++ "_iron", .int iron),
     (mode_key ++ "_wins", .int wins),
     (mode_key ++ "_losses", .int losses),
     (mode_key ++ "_final_kills", .int final_kills),
     (mode_key ++ "_final_deaths", .int final_deaths),
     (mode_key ++ "_kills", .int kills),
     (mode_key ++ "_deaths", .int deaths),
     (mode_key ++ "_beds_broken", .int beds_broken),
     (mode_key ++ "_beds_lost", .int beds_lost),
     (mode_key ++ "_wlr", .ratio (round2 (if 0 < losses then (wins : ℚ) / (losses : ℚ) else (wins : ℚ)))),
     (mode_key ++ "_kdr", .ratio (round2 (if 0 < deaths then (kills : ℚ) / (deaths : ℚ) else (kills : ℚ)))),
     (mode_key ++ "_fkdr", .ratio (round2 (if 0 < final_deaths then (final_kills : ℚ) / (final_deaths : ℚ) else (final_kills : ℚ)))),
     (mode_key ++ "_bblr", .ratio (round2 (if 0 < beds_lost then (beds_broken : ℚ) / (beds_lost : ℚ) else (beds_broken : ℚ))))]

/-- State-action version of `simpleModeStats`. -/
def simpleModeStatsS (mode_key mpfx : String) :
    StateM RawMap (List (String × StatVal)) := do
  let wins ← getS (mpfx ++ "wins_bedwars")
  let losses ← getS (mpfx ++ "losses_bedwars")
  let final_kills ← getS (mpfx ++ "final_kills_bedwars")
  let final_deaths ← getS (mpfx ++ "final_deaths_bedwars")
  let kills ← getS (mpfx ++ "kills_bedwars")
  let deaths ← getS (mpfx ++ "deaths_bedwars")
  let beds_broken ← getS (mpfx ++ "beds_broken_bedwars")
  let beds_lost ← getS (mpfx ++ "beds_lost_bedwars")
  let emeralds ← getS (mpfx ++ "emerald_resources_collected_bedwars")
  let diamonds ← getS (mpfx ++ "diamond_resources_collected_bedwars")
  let gold ← getS (mpfx ++ "gold_resources_collected_bedwars")
  let iron ← getS (mpfx ++ "iron_resources_collected_bedwars")
  pure
    [(mode_key ++ "_emeralds", .int emeralds),
     (mode_key ++ "_diamonds", .int diamonds),
     (mode_key ++ "_gold", .int gold),
     (mode_key ++ "_iron", .int iron),
     (mode_key ++ "_wins", .int wins),
     (mode_key ++ "_losses", .int losses),
     (mode_key ++ "_final_kills", .int final_kills),
     (mode_key ++ "_final_deaths", .int final_deaths),
     (mode_key ++ "_kills", .int kills),
     (mode_key ++ "_deaths", .int deaths),
     (mode_key ++ "_beds_broken", .int beds_broken),
     (mode_key ++ "_beds_lost", .int beds_lost),
     (mode_key ++ "_wlr", .ratio (round2 (if 0 < losses then (wins : ℚ) / (losses : ℚ) else (wins : ℚ)))),
     (mode_key ++ "_kdr", .ratio (round2 (if 0 < deaths then (kills : ℚ) / (deaths : ℚ) else (kills : ℚ)))),
     (mode_key ++ "_fkdr", .ratio (round2 (if 0 < final_deaths then (final_kills : ℚ) / (final_deaths : ℚ) else (final_kills : ℚ)))),
     (mode_key ++ "_bblr", .ratio (round2 (if 0 < beds_lost then (beds_broken : ℚ) / (beds_lost : ℚ) else (beds_broken : ℚ))))]

/-- State-action version of the branch selection of the loop body. -/
def modeStatsS (gm : String × Option String) :
    StateM RawMap (List (String × StatVal)) :=
  match List.find? (fun c => c.1 == gm.1) combined_modes with
  | some c => sumModeStatsS gm.1 c.2
  | none =>
    if gm.1 == "core" then sumModeStatsS gm.1 core_modes
    else simpleModeStatsS gm.1 (gm.2.getD "")

/-- State-action version of the whole aggregation loop, building the output
entries in the same order the Python loop inserts them. -/
def buildStatsListS : List (String × Option String) →
    StateM RawMap (List (String × List (String × StatVal)))
  | [] => pure []
  | gm :: rest => do
    let r ← modeStatsS gm
    let tail ← buildStatsListS rest
    pure ((gm.1, r) :: tail)

/-! ## Leveling calculator

`get_level_info` is imported from `utils`, a module that is not part of the
reviewed source; only its call site (`app.py` line 302) is.  Per the spec
(section 4.1 and design note in section 9) the calculator is modelled here
from its contract: a piecewise experience curve whose first four levels of
every 100-level prestige block are cheap (500, 1000, 2000, 3500 xp) and whose
remaining levels cost a constant 5000 xp each, so one prestige block costs
487000 xp.  Levels start at 1 (0 xp). -/

/-- Modelled from the spec: cumulative experience needed, within one prestige
block, to reach the level at offset `off` (0-based) from the first level of the
block. -/
def cumCost (off : Nat) : Nat :=
  if off = 0 then 0
  else if off = 1 then 500
  else if off = 2 then 1500
  else if off = 3 then 3500
  else 7000 + 5000 * (off - 4)

/-- Modelled from the spec: total experience required to reach whole level
`L` (levels start at 1; `xp_for_level 1 = 0`). -/
def xp_for_level (L : Nat) : Nat :=
  487000 * ((L - 1) / 100) + cumCost ((L - 1) % 100)

/-- Modelled from the spec: the whole ("star") level reached with `xp`
experience, the largest `L` with `xp_for_level L ≤ xp`. -/
def wholeLevel (xp : Nat) : Nat :=
  let p := xp / 487000
  let r := xp % 487000
  let off :=
    if r < 500 then 0
    else if r < 1500 then 1
    else if r < 3500 then 2
    else if r < 7000 then 3
    else 4 + (r - 7000) / 5000
  100 * p + off + 1

/-- The progression tuple returned by the leveling calculator. -/
structure LevelInfo where
  level : ℚ
  prestige : ℤ
  xp_to_next_level : ℤ
  progress_percentage : ℚ

/-- Modelled from the spec: `get_level_info` / `compute_level`.  The level
carries the fractional progress within the current level; prestige is
`floor((level - 1) / 100)`. -/
def compute_level (xp : Nat) : LevelInfo :=
  let w := wholeLevel xp
  let need := xp_for_level (w + 1) - xp_for_level w
  let into := xp - xp_for_level w
  { level := (w : ℚ) + (into : ℚ) / (need : ℚ)
  , prestige := ((w : ℤ) - 1) / 100
  , xp_to_next_level := (xp_for_level (w + 1) : ℤ) - (xp : ℤ)
  , progress_percentage := (into : ℚ) / (need : ℚ) * 100 }

/-- Truncation toward zero of a rational, modelling
`int(str(level).split(".")[0])` from `app.py` line 486: the digits of the
decimal rendering of `level` before the decimal point, parsed back as an
integer, give the integer part truncated toward zero. -/
def ratTrunc (q : ℚ) : ℤ :=
  if 0 ≤ q then ⌊q⌋ else -⌊-q⌋

/-- The `next_level` computation from `app.py` lines 485-488. -/
def next_level_of (lv : ℚ) : ℤ := ratTrunc lv + 1

/-- The 16 field names of a mode metrics record, in output order. -/
def expectedFields (mk : String) : List String :=
  [mk ++ "_emeralds", mk ++ "_diamonds", mk ++ "_gold", mk ++ "_iron",
   mk ++ "_wins", mk ++ "_losses", mk ++ "_final_kills", mk ++ "_final_deaths",
   mk ++ "_kills", mk ++ "_deaths", mk ++ "_beds_broken", mk ++ "_beds_lost",
   mk ++ "_wlr", mk ++ "_kdr", mk ++ "_fkdr", mk ++ "_bblr"]

/-! ## Theorems -/

/-- Rounding to two decimal places leaves an integer value unchanged. -/
theorem round2_natCast (n : Nat) : round2 ((n : ℕ) : ℚ) = (n : ℚ) := by
  unfold round2
  have h : ((n : ℚ) * 100) = ((n * 100 : ℕ) : ℚ) := by push_cast; ring
  rw [h, round_natCast]
  push_cast
  ring_nf

/-- C7: for every raw counter map, the counters and resource totals of the
overall pseudo-mode are the unprefixed lookups of each metric suffix in the
raw map (the `overall` schema prefix is the empty string). -/
theorem overall_unprefixed (m : RawMap) (fp : String × String)
    (hf : fp ∈ metricFields) :
    statsField (buildStats m) "overall" ("overall" ++ "_" ++ fp.1) =
      some (.int (rawGet m fp.2)) := by
  fin_cases hf <;> rfl

/-- Witness for C7 at a concrete raw map. -/
theorem overall_unprefixed_witness :
    statsField (buildStats [("wins_bedwars", 4)]) "overall"
      ("overall" ++ "_" ++ "wins") = some (.int 4) :=
  overall_unprefixed [("wins_bedwars", 4)] ("wins", "wins_bedwars") (by decide)

/-- C2: for every raw counter map and every combined category, each of the 8
raw counters and 4 resource totals in its record is the exact sum of the
raw-map values under its two constituent prefixes (absent keys count 0). -/
theorem combined_category_sums (m : RawMap) (cm : String × List String)
    (h : cm ∈ combined_modes) (fp : String × String)
    (hf : fp ∈ metricFields) :
    ∃ p1 p2, cm.2 = [p1, p2] ∧
      statsField (buildStats m) cm.1 (cm.1 ++ "_" ++ fp.1) =
        some (.int (rawGet m (p1 ++ fp.2) + rawGet m (p2 ++ fp.2))) := by
  fin_cases h <;> fin_cases hf <;> exact ⟨_, _, rfl, rfl⟩

/-- Witness for C2: 2 doubles-ultimate wins and 3 fours-ultimate wins combine
to 5 ultimate wins. -/
theorem combined_category_sums_witness :
    statsField
        (buildStats [("eight_two_ultimate_wins_bedwars", 2),
                     ("four_four_ultimate_wins_bedwars", 3)])
        "ultimate" ("ultimate" ++ "_" ++ "wins") = some (.int 5) := by
  obtain ⟨p1, p2, hp, he⟩ :=
    combined_category_sums
      [("eight_two_ultimate_wins_bedwars", 2),
       ("four_four_ultimate_wins_bedwars", 3)]
      ("ultimate", ["eight_two_ultimate_", "four_four_ultimate_"]) (by decide)
      ("wins", "wins_bedwars") (by decide)
  injection hp with hp1 hp
  injection hp with hp2 _
  subst hp1
  subst hp2
  exact he

/-- C3: the counters and resource totals of the core pseudo-mode are the sums of
the raw values under exactly the four base prefixes; a raw map holding only
`eight_one_wins_bedwars = 7` yields `core_wins = 7` while the wins field of every
other simple mode is 0. -/
theorem core_mode_sums (m : RawMap) :
    (∀ fp ∈ metricFields,
      statsField (buildStats m) "core" ("core" ++ "_" ++ fp.1) =
        some (.int (rawGet m ("eight_one_" ++ fp.2) +
          (rawGet m ("eight_two_" ++ fp.2) +
            (rawGet m ("four_three_" ++ fp.2) +
              rawGet m ("four_four_" ++ fp.2)))))) ∧
    statsField (buildStats [("eight_one_wins_bedwars", 7)]) "core"
      "core_wins" = some (.int 7) ∧
    (∀ mk ∈ simpleModeKeys, mk ≠ "eight_one" →
      statsField (buildStats [("eight_one_wins_bedwars", 7)]) mk
        (mk ++ "_wins") = some (.int 0)) := by
  refine ⟨?_, rfl, ?_⟩
  · intro fp hf
    fin_cases hf <;> rfl
  · intro mk hmk hne
    fin_cases hmk <;> first | rfl | exact absurd rfl hne

/-- Witness for C3 at the empty raw map. -/
theorem core_mode_sums_witness :
    statsField (buildStats []) "core" ("core" ++ "_" ++ "wins") =
      some (.int 0) :=
  (core_mode_sums []).1 ("wins", "wins_bedwars") (by decide)

/-- C8: for every raw counter map the output mapping has exactly the 23
schema mode keys, once each and with no collisions, and the record of every mode
has exactly the 16 expected fields named after its mode key. -/
theorem output_mode_shape (m : RawMap) :
    (buildStats m).map Prod.fst = modeKeys ∧ modeKeys.Nodup ∧
    (∀ mk ∈ modeKeys,
      ((buildStats m).find? (fun p => p.1 == mk)).map
          (fun p => (p.2.map Prod.fst, p.2.length)) =
        some (expectedFields mk, 16)) := by
  refine ⟨rfl, by decide, ?_⟩
  intro mk hmk
  fin_cases hmk <;> rfl

/-- Witness for C8 at the empty raw map and the `swap` mode. -/
theorem output_mode_shape_witness :
    ((buildStats []).find? (fun p => p.1 == "swap")).map
        (fun p => (p.2.map Prod.fst, p.2.length)) =
      some (expectedFields "swap", 16) :=
  (output_mode_shape []).2.2 "swap" (by decide)

/-- The ratio entry produced from an all-zero numerator and denominator is
the rational 0. -/
theorem round2_zero_entry :
    round2 (if 0 < (0 : ℕ) then ((0 : ℕ) : ℚ) / ((0 : ℕ) : ℚ)
      else ((0 : ℕ) : ℚ)) = 0 := by
  rw [if_neg (by omega), round2_natCast]
  norm_num

/-- C5: the aggregation is total and missing keys default to zero: a key
absent from the raw map reads as 0, and the empty raw map yields 0 for every
raw counter, every resource total and every ratio of every mode. -/
theorem never_fails_defaults_zero :
    (∀ (m : RawMap) (k : String),
      List.find? (fun kv => kv.1 == k) m = none → rawGet m k = 0) ∧
    (∀ mk ∈ modeKeys, ∀ fp ∈ metricFields,
      statsField (buildStats []) mk (mk ++ "_" ++ fp.1) = some (.int 0)) ∧
    (∀ mk ∈ modeKeys, ∀ rf ∈ ratioFields,
      statsField (buildStats []) mk (mk ++ "_" ++ rf) = some (.ratio 0)) := by
  refine ⟨?_, ?_, ?_⟩
  · intro m k h
    simp [rawGet, h]
  · intro mk hmk fp hf
    fin_cases hmk <;> fin_cases hf <;> rfl
  · intro mk hmk rf hrf
    fin_cases hmk <;> fin_cases hrf <;> (rw [← round2_zero_entry]; rfl)

/-- Witness for C5: an unrelated key present in the map still leaves a
missing counter at zero. -/
theorem never_fails_defaults_zero_witness :
    rawGet [("eight_one_wins_bedwars", 7)] "eight_one_losses_bedwars" = 0 :=
  never_fails_defaults_zero.1 [("eight_one_wins_bedwars", 7)]
    "eight_one_losses_bedwars" (by decide)

/-- Rounding the rational 0 to two decimal places gives 0. -/
theorem round2_zero : round2 (0 : ℚ) = 0 := by
  have h := round2_natCast 0
  simpa using h

/-- C1: for every raw counter map and every schema mode key, each of the four
derived ratios equals `round2` of numerator/denominator when the denominator
is positive, and `round2` of the numerator itself otherwise; in particular a
zero denominator yields the numerator unchanged (so wins with zero losses
give a ratio equal to the win count, and 0 when wins are 0 too). -/
theorem ratio_zero_denominator_policy (m : RawMap) (mode : String)
    (h : mode ∈ modeKeys) :
    (statsField (buildStats m) mode (mode ++ "_wlr") =
      some (.ratio (round2 (if 0 < sumGet m (prefixesOf mode) "losses_bedwars"
        then (sumGet m (prefixesOf mode) "wins_bedwars" : ℚ) /
          (sumGet m (prefixesOf mode) "losses_bedwars" : ℚ)
        else (sumGet m (prefixesOf mode) "wins_bedwars" : ℚ))))) ∧
    (statsField (buildStats m) mode (mode ++ "_kdr") =
      some (.ratio (round2 (if 0 < sumGet m (prefixesOf mode) "deaths_bedwars"
        then (sumGet m (prefixesOf mode) "kills_bedwars" : ℚ) /
          (sumGet m (prefixesOf mode) "deaths_bedwars" : ℚ)
        else (sumGet m (prefixesOf mode) "kills_bedwars" : ℚ))))) ∧
    (statsField (buildStats m) mode (mode ++ "_fkdr") =
      some (.ratio (round2 (if 0 < sumGet m (prefixesOf mode) "final_deaths_bedwars"
        then (sumGet m (prefixesOf mode) "final_kills_bedwars" : ℚ) /
          (sumGet m (prefixesOf mode) "final_deaths_bedwars" : ℚ)
        else (sumGet m (prefixesOf mode) "final_kills_bedwars" : ℚ))))) ∧
    (statsField (buildStats m) mode (mode ++ "_bblr") =
      some (.ratio (round2 (if 0 < sumGet m (prefixesOf mode) "beds_lost_bedwars"
        then (sumGet m (prefixesOf mode) "beds_broken_bedwars" : ℚ) /
          (sumGet m (prefixesOf mode) "beds_lost_bedwars" : ℚ)
        else (sumGet m (prefixesOf mode) "beds_broken_bedwars" : ℚ))))) ∧
    (sumGet m (prefixesOf mode) "losses_bedwars" = 0 →
      statsField (buildStats m) mode (mode ++ "_wlr") =
        some (.ratio ((sumGet m (prefixesOf mode) "wins_bedwars" : ℚ)))) ∧
    (sumGet m (prefixesOf mode) "losses_bedwars" = 0 →
      sumGet m (prefixesOf mode) "wins_bedwars" = 0 →
      statsField (buildStats m) mode (mode ++ "_wlr") = some (.ratio 0)) := by
  have main :
      (statsField (buildStats m) mode (mode ++ "_wlr") =
        some (.ratio (round2 (if 0 < sumGet m (prefixesOf mode) "losses_bedwars"
          then (sumGet m (prefixesOf mode) "wins_bedwars" : ℚ) /
            (sumGet m (prefixesOf mode) "losses_bedwars" : ℚ)
          else (sumGet m (prefixesOf mode) "wins_bedwars" : ℚ))))) ∧
      (statsField (buildStats m) mode (mode ++ "_kdr") =
        some (.ratio (round2 (if 0 < sumGet m (prefixesOf mode) "deaths_bedwars"
          then (sumGet m (prefixesOf mode) "kills_bedwars" : ℚ) /
            (sumGet m (prefixesOf mode) "deaths_bedwars" : ℚ)
          else (sumGet m (prefixesOf mode) "kills_bedwars" : ℚ))))) ∧
      (statsField (buildStats m) mode (mode ++ "_fkdr") =
        some (.ratio (round2 (if 0 < sumGet m (prefixesOf mode) "final_deaths_bedwars"
          then (sumGet m (prefixesOf mode) "final_kills_bedwars" : ℚ) /
            (sumGet m (prefixesOf mode) "final_deaths_bedwars" : ℚ)
          else (sumGet m (prefixesOf mode) "final_kills_bedwars" : ℚ))))) ∧
      (statsField (buildStats m) mode (mode ++ "_bblr") =
        some (.ratio (round2 (if 0 < sumGet m (prefixesOf mode) "beds_lost_bedwars"
          then (sumGet m (prefixesOf mode) "beds_broken_bedwars" : ℚ) /
            (sumGet m (prefixesOf mode) "beds_lost_bedwars" : ℚ)
          else (sumGet m (prefixesOf mode) "beds_broken_bedwars" : ℚ))))) := by
    fin_cases h <;> exact ⟨rfl, rfl, rfl, rfl⟩
  obtain ⟨h1, h2, h3, h4⟩ := main
  refine ⟨h1, h2, h3, h4, fun hL => ?_, fun hL hW => ?_⟩
  · rw [h1, hL]
    norm_num [round2_natCast]
  · rw [h1, hL, hW]
    norm_num [round2_zero]

/-- Witness for C1: 5 solo wins and no losses give a solo win/loss ratio of
5. -/
theorem ratio_zero_denominator_policy_witness :
    statsField (buildStats [("eight_one_wins_bedwars", 5)]) "eight_one"
      ("eight_one" ++ "_wlr") = some (.ratio ((5 : ℕ) : ℚ)) :=
  (ratio_zero_denominator_policy [("eight_one_wins_bedwars", 5)] "eight_one"
    (by decide)).2.2.2.2.1 (by decide)

/-- C9: the aggregation never mutates the raw map of the caller: running the
state-passing model of the loop (every `dict.get` threaded through the
state) returns exactly the result of the pure aggregation together with the raw
map unchanged. -/
theorem no_mutation_of_raw_map (m : RawMap) :
    StateT.run (buildStatsListS gamemodes) m = (buildStats m, m) := rfl

/-- `sumGet` only depends on the raw map through the keys `p ++ suffix` for
`p` in the prefix list. -/
theorem sumGet_congr (m1 m2 : RawMap) (suffix : String) :
    ∀ (prefixes : List String),
      (∀ p ∈ prefixes, rawGet m1 (p ++ suffix) = rawGet m2 (p ++ suffix)) →
      sumGet m1 prefixes suffix = sumGet m2 prefixes suffix
  | [], _ => rfl
  | p :: ps, h => by
    have hp := h p (List.mem_cons_self p ps)
    have hps := sumGet_congr m1 m2 suffix ps
      (fun q hq => h q (List.mem_cons_of_mem p hq))
    simp only [sumGet, List.map_cons, List.sum_cons] at *
    rw [hp, hps]

/-- The record of a simple mode only depends on the raw map through its own
prefixed keys. -/
theorem simpleModeStats_congr (m1 m2 : RawMap) (mode_key mpfx : String)
    (h : ∀ s ∈ rawSuffixList, rawGet m1 (mpfx ++ s) = rawGet m2 (mpfx ++ s)) :
    simpleModeStats m1 mode_key mpfx = simpleModeStats m2 mode_key mpfx := by
  have h1 := h "emerald_resources_collected_bedwars" (by decide)
  have h2 := h "diamond_resources_collected_bedwars" (by decide)
  have h3 := h "gold_resources_collected_bedwars" (by decide)
  have h4 := h "iron_resources_collected_bedwars" (by decide)
  have h5 := h "wins_bedwars" (by decide)
  have h6 := h "losses_bedwars" (by decide)
  have h7 := h "final_kills_bedwars" (by decide)
  have h8 := h "final_deaths_bedwars" (by decide)
  have h9 := h "kills_bedwars" (by decide)
  have h10 := h "deaths_bedwars" (by decide)
  have h11 := h "beds_broken_bedwars" (by decide)
  have h12 := h "beds_lost_bedwars" (by decide)
  simp only [simpleModeStats, h1, h2, h3, h4, h5, h6, h7, h8, h9, h10, h11,
    h12]

/-- A summed record (core or combined) only depends on the raw map through
the keys under its prefix set. -/
theorem sumModeStats_congr (m1 m2 : RawMap) (mode_key : String)
    (prefixes : List String)
    (h : ∀ p ∈ prefixes, ∀ s ∈ rawSuffixList,
      rawGet m1 (p ++ s) = rawGet m2 (p ++ s)) :
    sumModeStats m1 mode_key prefixes = sumModeStats m2 mode_key prefixes := by
  have h1 := sumGet_congr m1 m2 "emerald_resources_collected_bedwars" prefixes
    (fun p hp => h p hp _ (by decide))
  have h2 := sumGet_congr m1 m2 "diamond_resources_collected_bedwars" prefixes
    (fun p hp => h p hp _ (by decide))
  have h3 := sumGet_congr m1 m2 "gold_resources_collected_bedwars" prefixes
    (fun p hp => h p hp _ (by decide))
  have h4 := sumGet_congr m1 m2 "iron_resources_collected_bedwars" prefixes
    (fun p hp => h p hp _ (by decide))
  have h5 := sumGet_congr m1 m2 "wins_bedwars" prefixes
    (fun p hp => h p hp _ (by decide))
  have h6 := sumGet_congr m1 m2 "losses_bedwars" prefixes
    (fun p hp => h p hp _ (by decide))
  have h7 := sumGet_congr m1 m2 "final_kills_bedwars" prefixes
    (fun p hp => h p hp _ (by decide))
  have h8 := sumGet_congr m1 m2 "final_deaths_bedwars" prefixes
    (fun p hp => h p hp _ (by decide))
  have h9 := sumGet_congr m1 m2 "kills_bedwars" prefixes
    (fun p hp => h p hp _ (by decide))
  have h10 := sumGet_congr m1 m2 "deaths_bedwars" prefixes
    (fun p hp => h p hp _ (by decide))
  have h11 := sumGet_congr m1 m2 "beds_broken_bedwars" prefixes
    (fun p hp => h p hp _ (by decide))
  have h12 := sumGet_congr m1 m2 "beds_lost_bedwars" prefixes
    (fun p hp => h p hp _ (by decide))
  simp only [sumModeStats, h1, h2, h3, h4, h5, h6, h7, h8, h9, h10, h11, h12]

/-- C10: keys outside the schema (a prefix of the schema followed by one of
the 12 metric suffixes) have no effect: two raw maps agreeing on all
relevant keys produce identical stats mappings. -/
theorem irrelevant_keys_no_effect (m1 m2 : RawMap)
    (h : ∀ k ∈ relevantKeys, rawGet m1 k = rawGet m2 k) :
    buildStats m1 = buildStats m2 := by
  have hps : ∀ p ∈ prefixList, ∀ s ∈ rawSuffixList,
      rawGet m1 (p ++ s) = rawGet m2 (p ++ s) := by
    intro p hp s hs
    exact h (p ++ s)
      (List.mem_flatMap.mpr ⟨p, hp, List.mem_map.mpr ⟨s, hs, rfl⟩⟩)
  unfold buildStats
  refine List.map_congr_left ?_
  intro gm hgm
  fin_cases hgm <;>
    refine congrArg _ ?_ <;>
    first
      | exact simpleModeStats_congr m1 m2 _ _
          (fun s hs => hps _ (by decide) s hs)
      | exact sumModeStats_congr m1 m2 _ _
          (fun p hp s hs => hps p (by fin_cases hp <;> decide) s hs)

set_option maxRecDepth 8192 in
/-- Witness for C10: a key matching no schema prefix + suffix leaves the
whole stats mapping unchanged. -/
theorem irrelevant_keys_no_effect_witness :
    (∀ k ∈ relevantKeys, rawGet [("slumber", 3)] k = rawGet [] k) ∧
    buildStats [("slumber", 3)] = buildStats [] :=
  ⟨by decide, irrelevant_keys_no_effect [("slumber", 3)] [] (by decide)⟩

/-- One level always costs positive experience: the curve is strictly
increasing from one level to the next. -/
theorem xp_for_level_lt_succ (L : Nat) (h : 1 ≤ L) :
    xp_for_level L < xp_for_level (L + 1) := by
  simp only [xp_for_level, cumCost]
  split_ifs <;> omega

/-- The experience curve is strictly increasing on levels at least 1. -/
theorem xp_for_level_strictMono (a b : Nat) (ha : 1 ≤ a) :
    a < b → xp_for_level a < xp_for_level b := by
  induction b with
  | zero => omega
  | succ n ih =>
    intro hab
    rcases Nat.lt_succ_iff_lt_or_eq.mp hab with hlt | heq
    · exact lt_trans (ih hlt) (xp_for_level_lt_succ n (by omega))
    · subst heq
      exact xp_for_level_lt_succ a ha

/-- The threshold of the whole level never exceeds the experience. -/
theorem xp_for_wholeLevel_le (xp : Nat) :
    xp_for_level (wholeLevel xp) ≤ xp := by
  simp only [wholeLevel, xp_for_level, cumCost]
  split_ifs <;> omega

/-- The experience is strictly below the threshold of the next level. -/
theorem lt_xp_for_wholeLevel_succ (xp : Nat) :
    xp < xp_for_level (wholeLevel xp + 1) := by
  simp only [wholeLevel, xp_for_level, cumCost]
  split_ifs <;> omega

/-- The whole level is monotone in experience. -/
theorem wholeLevel_mono (a b : Nat) (h : a ≤ b) :
    wholeLevel a ≤ wholeLevel b := by
  simp only [wholeLevel]
  split_ifs <;> omega

/-- The whole level is always at least 1. -/
theorem one_le_wholeLevel (xp : Nat) : 1 ≤ wholeLevel xp := by
  simp only [wholeLevel]
  split_ifs <;> omega

/-- Reading the whole level back from the exact experience threshold of a
level recovers that level. -/
theorem wholeLevel_xp_for (L : Nat) (h : 1 ≤ L) :
    wholeLevel (xp_for_level L) = L := by
  have hW1 : 1 ≤ wholeLevel (xp_for_level L) := one_le_wholeLevel _
  have hle := xp_for_wholeLevel_le (xp_for_level L)
  have hlt := lt_xp_for_wholeLevel_succ (xp_for_level L)
  rcases Nat.lt_trichotomy (wholeLevel (xp_for_level L)) L with hc | hc | hc
  · rcases Nat.eq_or_lt_of_le (Nat.succ_le_of_lt hc) with he | h2
    · have he2 : wholeLevel (xp_for_level L) + 1 = L := he
      rw [he2] at hlt
      omega
    · have h3 := xp_for_level_strictMono
        (wholeLevel (xp_for_level L) + 1) L (by omega) h2
      omega
  · exact hc
  · have h3 := xp_for_level_strictMono L (wholeLevel (xp_for_level L)) h hc
    omega

/-- The fractional part of the computed level is in `[0, 1)`: the level lies
in `[wholeLevel, wholeLevel + 1)`. -/
theorem level_lb (xp : Nat) :
    (wholeLevel xp : ℚ) ≤ (compute_level xp).level := by
  simp only [compute_level]
  have h : (0 : ℚ) ≤
      ((xp - xp_for_level (wholeLevel xp) : ℕ) : ℚ) /
        ((xp_for_level (wholeLevel xp + 1) - xp_for_level (wholeLevel xp) : ℕ) : ℚ) :=
    div_nonneg (Nat.cast_nonneg _) (Nat.cast_nonneg _)
  linarith

/-- The computed level is strictly below the next whole level. -/
theorem level_ub (xp : Nat) :
    (compute_level xp).level < (wholeLevel xp : ℚ) + 1 := by
  simp only [compute_level]
  have hw : 1 ≤ wholeLevel xp := one_le_wholeLevel xp
  have hpos : 0 < xp_for_level (wholeLevel xp + 1) - xp_for_level (wholeLevel xp) :=
    Nat.sub_pos_of_lt (xp_for_level_lt_succ (wholeLevel xp) hw)
  have hlt : xp - xp_for_level (wholeLevel xp) <
      xp_for_level (wholeLevel xp + 1) - xp_for_level (wholeLevel xp) := by
    have h1 := xp_for_wholeLevel_le xp
    have h2 := lt_xp_for_wholeLevel_succ xp
    omega
  have hfrac : ((xp - xp_for_level (wholeLevel xp) : ℕ) : ℚ) /
      ((xp_for_level (wholeLevel xp + 1) - xp_for_level (wholeLevel xp) : ℕ) : ℚ) < 1 := by
    rw [div_lt_one (by exact_mod_cast hpos)]
    exact_mod_cast hlt
  linarith

/-- The computed level is monotone in experience. -/
theorem compute_level_mono (a b : Nat) (h : a ≤ b) :
    (compute_level a).level ≤ (compute_level b).level := by
  rcases lt_or_eq_of_le (wholeLevel_mono a b h) with hw | hw
  · have h1 : (compute_level a).level < (wholeLevel a : ℚ) + 1 := level_ub a
    have h2 : ((wholeLevel a : ℚ) + 1) ≤ (wholeLevel b : ℚ) := by
      exact_mod_cast Nat.succ_le_of_lt hw
    have h3 : (wholeLevel b : ℚ) ≤ (compute_level b).level := level_lb b
    linarith
  · have hw1 : 1 ≤ wholeLevel a := one_le_wholeLevel a
    have hpos : 0 < xp_for_level (wholeLevel a + 1) - xp_for_level (wholeLevel a) :=
      Nat.sub_pos_of_lt (xp_for_level_lt_succ (wholeLevel a) hw1)
    have hposq : (0 : ℚ) <
        ((xp_for_level (wholeLevel a + 1) - xp_for_level (wholeLevel a) : ℕ) : ℚ) := by
      exact_mod_cast hpos
    have hsub : a - xp_for_level (wholeLevel a) ≤ b - xp_for_level (wholeLevel a) := by
      omega
    simp only [compute_level, ← hw]
    have hdiv :
        ((a - xp_for_level (wholeLevel a) : ℕ) : ℚ) /
            ((xp_for_level (wholeLevel a + 1) - xp_for_level (wholeLevel a) : ℕ) : ℚ) ≤
          ((b - xp_for_level (wholeLevel a) : ℕ) : ℚ) /
            ((xp_for_level (wholeLevel a + 1) - xp_for_level (wholeLevel a) : ℕ) : ℚ) :=
      (div_le_div_iff_of_pos_right hposq).mpr (by exact_mod_cast hsub)
    linarith

/-- The round trip: computing the level at the exact experience
threshold gives back that level, with zero fractional progress. -/
theorem compute_level_roundtrip (L : Nat) (h : 1 ≤ L) :
    (compute_level (xp_for_level L)).level = L := by
  simp only [compute_level]
  rw [wholeLevel_xp_for L h]
  simp

/-- C4: the modelled experience curve is strictly increasing in the level,
the round trip `compute_level (xp_for_level L) = L` holds for every level
`L ≥ 1` (hence across all prestige blocks), and the computed level is
monotone in experience. -/
theorem leveling_curve_properties :
    (∀ a b : Nat, 1 ≤ a → a < b → xp_for_level a < xp_for_level b) ∧
    (∀ L : Nat, 1 ≤ L → (compute_level (xp_for_level L)).level = L) ∧
    (∀ a b : Nat, a < b → (compute_level a).level ≤ (compute_level b).level) := by
  exact ⟨fun a b ha hab => xp_for_level_strictMono a b ha hab,
    compute_level_roundtrip, fun a b hab => compute_level_mono a b hab.le⟩

/-- Witness for C4 at concrete levels spanning three prestige blocks
(level 205 lies in the third block of 100 levels). -/
theorem leveling_curve_properties_witness :
    xp_for_level 1 < xp_for_level 205 ∧
    (compute_level (xp_for_level 205)).level = 205 ∧
    (compute_level 500).level ≤ (compute_level 1000).level :=
  ⟨leveling_curve_properties.1 1 205 (by norm_num) (by norm_num),
   leveling_curve_properties.2.1 205 (by norm_num),
   leveling_curve_properties.2.2 500 1000 (by norm_num)⟩

/-- The computed level is never negative. -/
theorem level_nonneg (xp : Nat) : 0 ≤ (compute_level xp).level := by
  have h1 : (0 : ℚ) ≤ (wholeLevel xp : ℚ) := Nat.cast_nonneg _
  have h2 := level_lb xp
  linarith

/-- C6: for every experience value, the `next_level` field the endpoint
computes from the (non-negative) level of the calculator equals
`floor(level) + 1`. -/
theorem next_level_is_floor_plus_one (xp : Nat) :
    next_level_of ((compute_level xp).level) =
      ⌊(compute_level xp).level⌋ + 1 := by
  have h := level_nonneg xp
  simp [next_level_of, ratTrunc, h]

end HypiLite
